import Mathlib

/-!
Verification of the illustration and fallback-generation pipeline of the
story-voyage repository, against its natural-language specification.

The definitions below are shallow embeddings of the TypeScript sources:

* the batch illustration route (`POST`, `generatePageIllustration`,
  `processImageResponse`),
* `src/lib/supabase.ts` (`uploadImageToStorage`),
* `src/app/api/illustrate/route.ts` (single-page `POST`),
* `src/app/api/advanced-illustrate/route.ts`,
* `src/app/api/generate/route.ts` (`generateIllustration`),
* the image read endpoint (`GET` over path segments), and
* the retention sweep (cleanup `POST`).

External effects (the remote generation call, blob-storage upload, filesystem
writes) are modelled by explicit environment parameters recording what each
external call returns; JavaScript string truthiness (undefined and the empty
string are falsy) is modelled on `Option String`.
-/

set_option linter.unusedVariables false

namespace StoryVoyage

/-! ### Generation response envelope

Shape of the external model response as the code reads it:
`response.candidates?.[0]?.content?.parts`, each part optionally carrying
`inlineData.data` (base64 string) and/or `text`. -/

/-- The `inlineData` object of a response part; its `data` field is optional. -/
structure InlineData where
  data : Option String
deriving DecidableEq, Repr

/-- One part of a generation response: optional `inlineData`, optional `text`. -/
structure GenPart where
  inlineData : Option InlineData := none
  text : Option String := none
deriving DecidableEq, Repr

/-- The `content` object of a candidate, with an optional `parts` array. -/
structure GenContent where
  parts : Option (List GenPart)
deriving DecidableEq, Repr

/-- One candidate of a generation response, with an optional `content`. -/
structure GenCandidate where
  content : Option GenContent
deriving DecidableEq, Repr

/-- A generation response envelope, with an optional `candidates` array. -/
structure GenerationResponse where
  candidates : Option (List GenCandidate)
deriving DecidableEq, Repr

/-- The optional-chaining access `response.candidates?.[0]?.content?.parts`:
`none` when any link of the chain is missing. -/
def responseParts (r : GenerationResponse) : Option (List GenPart) :=
  ((r.candidates.bind List.head?).bind GenCandidate.content).bind GenContent.parts

/-! ### Batch response extractor

Embedding of `processImageResponse` from the batch route: walk the parts of
the first candidate; on the first part whose `inlineData.data` is a truthy
(non-empty) string, decode it and upload, returning whatever
`uploadImageToStorage` returns; otherwise return `null`.  The upload call is
modelled by the `uploadResult` parameter (what `uploadImageToStorage` would
return for the decoded buffer); the surrounding `try/catch` returns `null` on
any thrown error, so the function is total. -/

/-- Loop body of `processImageResponse`: scan parts for the first truthy
`inlineData.data`; parts with missing `inlineData`, a missing `data` field,
or an empty `data` string are skipped. -/
def processParts (uploadResult : Option String) : List GenPart → Option String
  | [] => none
  | p :: ps =>
    match p.inlineData with
    | some d =>
      match d.data with
      | some s => if s = "" then processParts uploadResult ps else uploadResult
      | none => processParts uploadResult ps
    | none => processParts uploadResult ps

/-- Embedding of the batch route helper `processImageResponse`. -/
def processImageResponse (uploadResult : Option String) (r : GenerationResponse) :
    Option String :=
  match responseParts r with
  | none => none
  | some parts => processParts uploadResult parts

/-! ### Batch orchestrator

Embedding of the batch route.  A page request is `{text, prompt, pageIndex}`.
The environment `env : Nat -> PageEnv` records, for the pipeline invocation at
each global page position, what the remote generation call does (throws with a
message, or returns a response envelope) and what the storage upload would
return.  `generatePageIllustration` catches every thrown error internally, so
one page can never reject the `Promise.all` of its chunk. -/

/-- One entry of the request `pages` array. -/
structure PageRequest where
  text : String
  prompt : String
  pageIndex : Int
deriving DecidableEq, Repr

/-- What the external world does for one page pipeline invocation. -/
structure PageEnv where
  /-- Result of the remote `generateContent` call: a thrown error message or a
  response envelope. -/
  generate : Except String GenerationResponse
  /-- What `uploadImageToStorage` returns if the pipeline reaches the upload. -/
  uploadResult : Option String
deriving Repr

/-- Settings of a batch request after validation of the request body. -/
structure BatchSettings where
  characterDescription : Option String := none
  style : String := "realistic"
  consistencyMode : Bool := true
  fusionMode : Bool := false
  batchSize : Nat := 3
deriving Repr

/-- The per-page feature report attached to a successful batch result. -/
structure PageFeatures where
  style : String
  consistencyMode : String
  fusionMode : String
  characterDescription : String
deriving DecidableEq, Repr

/-- One per-page result of the batch orchestrator. -/
structure BatchResult where
  success : Bool
  pageIndex : Nat
  imageUrl : Option String := none
  error : Option String := none
  prompt : Option String := none
  text : Option String := none
  features : Option PageFeatures := none
deriving DecidableEq, Repr

/-- Embedding of `generatePageIllustration`: the page prompt is a pure string
whose effect on the remote call is abstracted into the environment; the
remote generation is invoked, the image extracted and persisted, and any
thrown error is captured into a failed `BatchResult` for this page alone. -/
def generatePageIllustration (cfg : BatchSettings) (page : PageRequest)
    (pageIndex : Nat) (env : PageEnv) : BatchResult :=
  match env.generate with
  | .error msg => { success := false, pageIndex := pageIndex, error := some msg }
  | .ok response =>
    match processImageResponse env.uploadResult response with
    | none => { success := false, pageIndex := pageIndex, error := some "No image generated" }
    | some url =>
      { success := true
        pageIndex := pageIndex
        imageUrl := some url
        prompt := some page.prompt
        text := some page.text
        features := some
          { style := cfg.style
            consistencyMode := if cfg.consistencyMode then "Enabled" else "Disabled"
            fusionMode := if cfg.fusionMode then "Enabled" else "Disabled"
            characterDescription :=
              match cfg.characterDescription with
              | some s => if s = "" then "None" else "Applied"
              | none => "None" } }

/-- The chunk map `(page, pageIndex) => f(startIndex + pageIndex, page)`,
generalized: apply `f` to each element with its global index, starting at `i`. -/
def enumMapFrom {β : Type} (f : Nat → PageRequest → β) : Nat → List PageRequest → List β
  | _, [] => []
  | i, p :: ps => f i p :: enumMapFrom f (i + 1) ps

/-- Number of chunks of the batch loop, `Math.ceil(pages.length / batchSize)`,
as computed for a positive batch size. -/
def totalBatches (n B : Nat) : Nat := (n + B - 1) / B

/-- Body of one iteration of the batch loop: slice
`pages.slice(startIndex, endIndex)` with `startIndex = batchIndex * B` and
`endIndex = min(startIndex + B, pages.length)`, and map each page of the
chunk at its global index (`o` is an index offset, `0` in the route). -/
def chunkBody {β : Type} (f : Nat → PageRequest → β) (o : Nat)
    (pages : List PageRequest) (B : Nat) (batchIndex : Nat) : List β :=
  let startIndex := batchIndex * B
  let endIndex := min (startIndex + B) pages.length
  enumMapFrom f (o + startIndex) ((pages.drop startIndex).take (endIndex - startIndex))

/-- The chunked for-loop of the batch route: concatenate the results of every
chunk, in chunk order. -/
def chunkedFrom {β : Type} (f : Nat → PageRequest → β) (o : Nat)
    (pages : List PageRequest) (B : Nat) : List β :=
  (List.range (totalBatches pages.length B)).flatMap (chunkBody f o pages B)

/-- The `results` array accumulated by the batch loop of the route `POST`. -/
def batchResults (cfg : BatchSettings) (pages : List PageRequest)
    (env : Nat → PageEnv) : List BatchResult :=
  chunkedFrom (fun i page => generatePageIllustration cfg page i (env i)) 0 pages cfg.batchSize

/-- Rendering of the summary field
`Math.round((successful / totalPages) * 100) + "%"` under JavaScript number
semantics: division by zero gives `NaN` (or `Infinity` for a positive
numerator), which prints as-is; otherwise `Math.round(x) = floor(x + 1/2)`. -/
def successRateString (s n : Nat) : String :=
  if n = 0 then
    (if s = 0 then "NaN" else "Infinity") ++ "%"
  else
    toString ((200 * s + n) / (2 * n)) ++ "%"

/-- The summary object of the batch response. -/
structure BatchSummary where
  totalPages : Nat
  successful : Nat
  failed : Nat
  successRate : String
deriving DecidableEq, Repr

/-- The success response body of the batch route. -/
structure BatchResponse where
  results : List BatchResult
  failedResults : List BatchResult
  summary : BatchSummary
deriving DecidableEq, Repr

/-- Embedding of the batch route `POST` after validation: run the chunked
loop, partition results into successes and failures, and report both lists
with the summary. -/
def batchPOST (cfg : BatchSettings) (pages : List PageRequest)
    (env : Nat → PageEnv) : BatchResponse :=
  let results := batchResults cfg pages env
  let successfulResults := results.filter (fun r => r.success)
  let failedResults := results.filter (fun r => !r.success)
  { results := successfulResults
    failedResults := failedResults
    summary :=
      { totalPages := pages.length
        successful := successfulResults.length
        failed := failedResults.length
        successRate := successRateString successfulResults.length pages.length } }

/-- Validation constraint of the batch body schema that concerns the claims:
`batchSize` is between 1 and 5; the `pages` array is unconstrained (in
particular it may be empty). -/
def batchBodyValid (pages : List PageRequest) (batchSize : Nat) : Prop :=
  1 ≤ batchSize ∧ batchSize ≤ 5

/-! ### Structural lemmas for the batch loop -/

theorem enumMapFrom_append {β : Type} (f : Nat → PageRequest → β) :
    ∀ (l₁ l₂ : List PageRequest) (o : Nat),
      enumMapFrom f o (l₁ ++ l₂) =
        enumMapFrom f o l₁ ++ enumMapFrom f (o + l₁.length) l₂ := by
  intro l₁
  induction l₁ with
  | nil => intro l₂ o; simp [enumMapFrom]
  | cons p ps ih =>
    intro l₂ o
    show f o p :: enumMapFrom f (o + 1) (ps ++ l₂) = _
    rw [ih l₂ (o + 1)]
    show _ = f o p :: (enumMapFrom f (o + 1) ps ++ enumMapFrom f (o + (p :: ps).length) l₂)
    rw [show o + (p :: ps).length = o + 1 + ps.length from by
      simp only [List.length_cons]; omega]

theorem enumMapFrom_length {β : Type} (f : Nat → PageRequest → β) :
    ∀ (l : List PageRequest) (o : Nat), (enumMapFrom f o l).length = l.length := by
  intro l
  induction l with
  | nil => intro o; rfl
  | cons p ps ih => intro o; simp [enumMapFrom, ih]

theorem enumMapFrom_getElem? {β : Type} (f : Nat → PageRequest → β) :
    ∀ (l : List PageRequest) (o j : Nat),
      (enumMapFrom f o l)[j]? = l[j]?.map (fun p => f (o + j) p) := by
  intro l
  induction l with
  | nil => intro o j; simp [enumMapFrom]
  | cons p ps ih =>
    intro o j
    cases j with
    | zero => simp [enumMapFrom]
    | succ j =>
      simp only [enumMapFrom, List.getElem?_cons_succ, ih]
      rw [show o + 1 + j = o + (j + 1) by omega]

/-- The chunked batch loop visits every page exactly once, in order, at its
global index: for a positive batch size it is the plain indexed map over the
whole page list. -/
theorem chunkedFrom_eq_enumMapFrom {β : Type} (f : Nat → PageRequest → β) (B : Nat)
    (hB : 1 ≤ B) :
    ∀ (n : Nat) (pages : List PageRequest), pages.length = n →
      ∀ o, chunkedFrom f o pages B = enumMapFrom f o pages := by
  intro n
  induction n using Nat.strong_induction_on with
  | _ n ih =>
    intro pages hN o
    rcases Nat.eq_zero_or_pos n with h0 | hpos
    · subst h0
      have hnil : pages = [] := List.length_eq_zero.mp hN
      subst hnil
      have ht : totalBatches 0 B = 0 := Nat.div_eq_of_lt (by omega)
      simp [chunkedFrom, ht, enumMapFrom]
    · by_cases hle : pages.length ≤ B
      · -- a single chunk covers the whole list
        have ht : totalBatches pages.length B = 1 := by
          unfold totalBatches
          exact Nat.div_eq_of_lt_le (by omega) (by omega)
        have hr1 : List.range 1 = [0] := rfl
        simp only [chunkedFrom, ht, hr1, List.flatMap_cons, List.flatMap_nil,
          List.append_nil, chunkBody]
        have hmin : min (0 * B + B) pages.length - 0 * B = pages.length := by
          simp only [Nat.zero_mul]
          omega
        rw [hmin]
        simp [List.take_of_length_le (le_refl pages.length)]
      · -- first chunk, then the same loop on the pages after it
        push_neg at hle
        have hlen_drop : (pages.drop B).length = pages.length - B := by simp
        have htsucc : totalBatches pages.length B =
            totalBatches (pages.drop B).length B + 1 := by
          unfold totalBatches
          rw [hlen_drop]
          rw [show pages.length + B - 1 = (pages.length - B + B - 1) + B by omega]
          rw [Nat.add_div_right _ (by omega)]
        have hstep : ∀ bi : Nat,
            chunkBody f o pages B (Nat.succ bi) =
              chunkBody f (o + B) (pages.drop B) B bi := by
          intro bi
          simp only [chunkBody, List.drop_drop, hlen_drop, Nat.succ_mul]
          generalize bi * B = x
          have h2 : min (x + B + B) pages.length - (x + B) =
              min (x + B) (pages.length - B) - x := by omega
          rw [h2]
          rw [show o + (x + B) = o + B + x from by omega]
          rw [show x + B = B + x from by omega]
        have hchunk0 : chunkBody f o pages B 0 = enumMapFrom f o (pages.take B) := by
          simp only [chunkBody, Nat.zero_mul]
          have hmin : min (0 + B) pages.length - 0 = B := by omega
          rw [hmin]
          simp
        have htail :
            (List.range (totalBatches (pages.drop B).length B)).flatMap
                (fun bi => chunkBody f o pages B (Nat.succ bi)) =
              chunkedFrom f (o + B) (pages.drop B) B := by
          unfold chunkedFrom
          exact congrArg _ (funext hstep)
        calc chunkedFrom f o pages B
            = chunkBody f o pages B 0 ++
                (List.range (totalBatches (pages.drop B).length B)).flatMap
                  (fun bi => chunkBody f o pages B (Nat.succ bi)) := by
              unfold chunkedFrom
              rw [htsucc, List.range_succ_eq_map, List.flatMap_cons, List.flatMap_map]
          _ = enumMapFrom f o (pages.take B) ++ chunkedFrom f (o + B) (pages.drop B) B := by
              rw [hchunk0, htail]
          _ = enumMapFrom f o (pages.take B) ++ enumMapFrom f (o + B) (pages.drop B) := by
              rw [ih (pages.length - B) (by omega) (pages.drop B) hlen_drop (o + B)]
          _ = enumMapFrom f o pages := by
              have hlen_take : (pages.take B).length = B := by
                simp only [List.length_take]
                omega
              have happ := enumMapFrom_append f (pages.take B) (pages.drop B) o
              rw [List.take_append_drop, hlen_take] at happ
              exact happ.symm

theorem batchResults_eq (cfg : BatchSettings) (pages : List PageRequest)
    (env : Nat → PageEnv) (hB : 1 ≤ cfg.batchSize) :
    batchResults cfg pages env =
      enumMapFrom (fun i page => generatePageIllustration cfg page i (env i)) 0 pages :=
  chunkedFrom_eq_enumMapFrom _ cfg.batchSize hB pages.length pages rfl 0

theorem generatePageIllustration_pageIndex (cfg : BatchSettings) (page : PageRequest)
    (i : Nat) (e : PageEnv) : (generatePageIllustration cfg page i e).pageIndex = i := by
  cases hg : e.generate with
  | error msg => simp [generatePageIllustration, hg]
  | ok r =>
    cases hp : processImageResponse e.uploadResult r with
    | none => simp [generatePageIllustration, hg, hp]
    | some url => simp [generatePageIllustration, hg, hp]

theorem enumMapFrom_map_pageIndex (cfg : BatchSettings) (env : Nat → PageEnv) :
    ∀ (l : List PageRequest) (o : Nat),
      (enumMapFrom (fun i page => generatePageIllustration cfg page i (env i)) o l).map
          (fun r => r.pageIndex) = List.range' o l.length := by
  intro l
  induction l with
  | nil => intro o; rfl
  | cons p ps ih =>
    intro o
    simp only [enumMapFrom, List.map_cons, ih, List.length_cons, List.range'_succ]
    rw [generatePageIllustration_pageIndex]

theorem length_filter_add_length_filter_not {α : Type} (p : α → Bool) (l : List α) :
    (l.filter p).length + (l.filter (fun a => !p a)).length = l.length := by
  induction l with
  | nil => rfl
  | cons a t ih =>
    by_cases h : p a <;> simp [List.filter_cons, h, ← ih] <;> omega

/-! ### Concrete sample inputs used by counterexamples and witnesses -/

/-- Batch settings with batch size 1 (valid: the schema allows 1 to 5). -/
def cfgB1 : BatchSettings := { batchSize := 1 }

/-- Default batch settings (batch size 3). -/
def cfgDefault : BatchSettings := {}

/-- A page request whose own `pageIndex` field is 5. -/
def pageFive : PageRequest := { text := "t", prompt := "p", pageIndex := 5 }

/-- An environment where every remote generation call throws. -/
def envErr : Nat → PageEnv := fun _ => { generate := .error "boom", uploadResult := none }

/-- A part carrying non-empty inline image data. -/
def inlinePartGood : GenPart := { inlineData := some { data := some "QUJD" }, text := none }

/-- Bundling of a part list into a response envelope (candidates[0].content.parts). -/
def mkResponse (parts : List GenPart) : GenerationResponse :=
  { candidates := some [{ content := some { parts := some parts } }] }

/-- A response with one part carrying non-empty inline image data. -/
def respInline : GenerationResponse := mkResponse [inlinePartGood]

/-- An environment where every page generates and persists successfully. -/
def envGood : Nat → PageEnv :=
  fun _ => { generate := .ok respInline, uploadResult := some "/images/u.png" }

/-- The environment `envGood` with a failure injected at page 0 only. -/
def envBad : Nat → PageEnv :=
  fun j => if j = 0 then { generate := .error "boom", uploadResult := none } else envGood j

/-- Two page requests, used by the isolation witness. -/
def pagesTwo : List PageRequest :=
  [{ text := "a", prompt := "pa", pageIndex := 0 }, { text := "b", prompt := "pb", pageIndex := 1 }]

/-! ### Claim C1 -/

/-- C1 counterexample: the batch orchestrator sets each result's `pageIndex`
to the page's array position, not to the request's own `pageIndex` field.
With a single page whose `pageIndex` field is 5, the produced result carries
`pageIndex = 0`, so the claimed equality with the input field fails. -/
theorem batch_pageIndex_ignores_field_counterexample :
    (batchResults cfgB1 [pageFive] envErr).map (fun r => (r.pageIndex : Int)) ≠
      [pageFive].map (fun p => p.pageIndex) := by
  decide

/-- C1 (amended): for every batch request with a positive batch size, the
orchestrator produces exactly one `BatchResult` per input page; the
`pageIndex` values are distinct, span `0..N-1`, and equal each page's
position in the input array (the request's own `pageIndex` field is
ignored); and the summary satisfies `successful + failed = totalPages = N`. -/
theorem batch_one_result_per_page (cfg : BatchSettings) (pages : List PageRequest)
    (env : Nat → PageEnv) (hB : 1 ≤ cfg.batchSize) :
    (batchPOST cfg pages env).results.length +
        (batchPOST cfg pages env).failedResults.length = pages.length ∧
    (batchPOST cfg pages env).summary.totalPages = pages.length ∧
    (batchPOST cfg pages env).summary.successful = (batchPOST cfg pages env).results.length ∧
    (batchPOST cfg pages env).summary.failed = (batchPOST cfg pages env).failedResults.length ∧
    (batchResults cfg pages env).map (fun r => r.pageIndex) = List.range pages.length := by
  have hres := batchResults_eq cfg pages env hB
  have hmap : (batchResults cfg pages env).map (fun r => r.pageIndex) =
      List.range pages.length := by
    rw [hres, enumMapFrom_map_pageIndex, List.range_eq_range']
  have hlen : (batchResults cfg pages env).length = pages.length := by
    have hml := congrArg List.length hmap
    simpa using hml
  refine ⟨?_, rfl, rfl, rfl, hmap⟩
  show ((batchResults cfg pages env).filter (fun r => r.success)).length +
      ((batchResults cfg pages env).filter (fun r => !r.success)).length = pages.length
  rw [length_filter_add_length_filter_not (fun r => r.success) (batchResults cfg pages env),
    hlen]

/-- Witness for C1 (amended) at a concrete input. -/
theorem batch_one_result_per_page_witness :
    (batchResults cfgB1 [pageFive] envErr).map (fun r => r.pageIndex) =
      List.range [pageFive].length :=
  (batch_one_result_per_page cfgB1 [pageFive] envErr (by decide)).2.2.2.2

/-! ### Claim C2 -/

/-- C2: per-page isolation.  If two environments agree on the external
behaviour (remote call and upload) of every page except page `k`, then every
result at a position other than `k` is unchanged; moreover the batch always
produces one result per page, so no page's failure aborts the batch. -/
theorem batch_page_isolation (cfg : BatchSettings) (pages : List PageRequest)
    (env env2 : Nat → PageEnv) (k : Nat) (hB : 1 ≤ cfg.batchSize)
    (hagree : ∀ j, j ≠ k → env j = env2 j) :
    (∀ j, j ≠ k → (batchResults cfg pages env)[j]? = (batchResults cfg pages env2)[j]?) ∧
    (batchResults cfg pages env).length = pages.length ∧
    (batchResults cfg pages env2).length = pages.length := by
  refine ⟨?_, ?_, ?_⟩
  · intro j hj
    rw [batchResults_eq cfg pages env hB, batchResults_eq cfg pages env2 hB,
      enumMapFrom_getElem?, enumMapFrom_getElem?]
    simp only [Nat.zero_add]
    rw [hagree j hj]
  · rw [batchResults_eq cfg pages env hB, enumMapFrom_length]
  · rw [batchResults_eq cfg pages env2 hB, enumMapFrom_length]

/-- Witness for C2 at a concrete input: a failure injected at page 0 leaves
page 1's result untouched. -/
theorem batch_page_isolation_witness :
    (∀ j, j ≠ 0 →
      (batchResults cfgDefault pagesTwo envGood)[j]? =
        (batchResults cfgDefault pagesTwo envBad)[j]?) ∧
    (batchResults cfgDefault pagesTwo envGood).length = pagesTwo.length ∧
    (batchResults cfgDefault pagesTwo envBad).length = pagesTwo.length :=
  batch_page_isolation cfgDefault pagesTwo envGood envBad 0 (by decide)
    (fun j hj => by simp [envBad, hj])

/-! ### Claim C10 -/

/-- C10: a batch request with an empty pages array is accepted by validation,
produces no results, and reports the summary
`{totalPages: 0, successful: 0, failed: 0, successRate: "NaN%"}` (the rate
is `0 / 0`, which is `NaN` under JavaScript number semantics). -/
theorem batch_empty_pages (cfg : BatchSettings) (env : Nat → PageEnv)
    (hB1 : 1 ≤ cfg.batchSize) (hB5 : cfg.batchSize ≤ 5) :
    batchBodyValid [] cfg.batchSize ∧
    (batchPOST cfg [] env).results = [] ∧
    (batchPOST cfg [] env).failedResults = [] ∧
    (batchPOST cfg [] env).summary =
      { totalPages := 0, successful := 0, failed := 0, successRate := "NaN%" } := by
  have h0 : batchResults cfg [] env = [] := by
    rw [batchResults_eq cfg [] env hB1]
    rfl
  have hsum : successRateString 0 0 = "NaN%" := rfl
  refine ⟨⟨hB1, hB5⟩, ?_, ?_, ?_⟩ <;> simp [batchPOST, h0, hsum]

/-- Witness for C10 at a concrete input. -/
theorem batch_empty_pages_witness :
    batchBodyValid [] cfgDefault.batchSize ∧
    (batchPOST cfgDefault [] envErr).results = [] ∧
    (batchPOST cfgDefault [] envErr).failedResults = [] ∧
    (batchPOST cfgDefault [] envErr).summary =
      { totalPages := 0, successful := 0, failed := 0, successRate := "NaN%" } :=
  batch_empty_pages cfgDefault envErr (by decide) (by decide)

/-! ### Persistence sink

Embedding of `uploadImageToStorage` from `src/lib/supabase.ts`.  The supabase
storage client reports failures through the returned `error` field of each
call rather than by throwing, which the code relies on by destructuring
`{ data, error }`.  The bucket-setup step (list buckets, create the bucket if
absent) only logs its errors and never changes the returned value.  The local
fallback (`mkdir` + `writeFile`) can throw; any throw inside the function is
caught by the enclosing `try/catch`, which returns `null` — so the function
as a whole never throws, modelled here by totality. -/

/-- What the external storage and filesystem do during one upload call. -/
structure StorageEnv where
  /-- Whether a service-role admin client is configured. -/
  adminConfigured : Bool := false
  /-- Error returned by `listBuckets`, if any (logged only). -/
  listBucketsError : Option String := none
  /-- Names of the existing buckets. -/
  buckets : List String := []
  /-- Error returned by `createBucket`, if any (logged only). -/
  createBucketError : Option String := none
  /-- Result of the storage `upload` call: an error message, or the stored
  object's `data.path`. -/
  upload : Except String String
  /-- The `getPublicUrl` mapping from a stored path to its public URL. -/
  publicUrl : String → String := fun p => p
  /-- Whether the local `mkdir` + `writeFile` fallback succeeds; when it does
  not, the write throws and the enclosing catch returns `null`. -/
  localWriteOk : Bool := true

/-- Embedding of `uploadImageToStorage`: try the blob-storage upload; on a
returned upload error, fall back to writing the bytes under `public/images`
and return the path-based URL; if that write also fails, the catch-all
returns `null`.  On upload success return the storage public URL. -/
def uploadImageToStorage (env : StorageEnv) (filename : String) : Option String :=
  match env.upload with
  | .error _ =>
    if env.localWriteOk then some ("/images/" ++ filename) else none
  | .ok path => some (env.publicUrl path)

/-- C3: the persistence sink is total (never lets an exception escape), falls
back to the local path URL whenever the blob-storage upload fails and the
local write succeeds, and returns `null` exactly when both the upload and
the local fallback fail. -/
theorem uploadImageToStorage_fallback (env : StorageEnv) (filename : String) :
    (∀ e, env.upload = .error e → env.localWriteOk = true →
      uploadImageToStorage env filename = some ("/images/" ++ filename)) ∧
    (uploadImageToStorage env filename = none ↔
      (∃ e, env.upload = .error e) ∧ env.localWriteOk = false) := by
  constructor
  · intro e he hw
    simp [uploadImageToStorage, he, hw]
  · cases hu : env.upload with
    | error e =>
      cases hw : env.localWriteOk <;> simp [uploadImageToStorage, hu, hw]
    | ok p => simp [uploadImageToStorage, hu]

/-- A storage environment whose upload fails but whose local write succeeds. -/
def storageEnvUploadFails : StorageEnv := { upload := .error "Bucket not found" }

/-- Witness for C3 at a concrete input. -/
theorem uploadImageToStorage_fallback_witness :
    uploadImageToStorage storageEnvUploadFails "f.png" = some "/images/f.png" :=
  (uploadImageToStorage_fallback storageEnvUploadFails "f.png").1 "Bucket not found" rfl rfl

/-! ### Single-illustrate route extraction

Embedding of the response-scanning loop of the single-page illustrate route
`POST` (after the remote call): unlike `processImageResponse`, a part that
declares `inlineData` whose `data` is missing or empty makes the route throw
`"No image data received"`; the route-level catch turns the throw into a 500
error response, not into the 502 "no image" response. -/

/-- Outcome of the illustrate route after the remote call. -/
inductive IllustrateOutcome where
  /-- 200 response with an image URL. -/
  | ok (imageUrl : String)
  /-- A thrown error, caught by the route and returned as a 500 response. -/
  | thrown (msg : String)
  /-- 502 response "No image returned from model". -/
  | noImage
deriving DecidableEq, Repr

/-- The scanning loop of the illustrate route: on the first part with an
`inlineData` field, either upload (throwing on a `null` upload result) or
throw "No image data received" when the data is missing or empty. -/
def illustrateScan (uploadResult : Option String) : List GenPart → IllustrateOutcome
  | [] => .noImage
  | p :: ps =>
    match p.inlineData with
    | some d =>
      match d.data with
      | some s =>
        if s = "" then .thrown "No image data received"
        else
          match uploadResult with
          | some url => .ok url
          | none => .thrown "Failed to upload image to storage"
      | none => .thrown "No image data received"
    | none => illustrateScan uploadResult ps

/-- Embedding of the illustrate route's extraction-and-persist step. -/
def illustrateExtract (uploadResult : Option String) (r : GenerationResponse) :
    IllustrateOutcome :=
  match responseParts r with
  | none => .noImage
  | some parts => illustrateScan uploadResult parts

/-- A part whose `inlineData` is declared but whose `data` field is empty. -/
def emptyDataPart : GenPart := { inlineData := some { data := some "" }, text := none }

/-- A part with no `inlineData` at all, only text. -/
def textOnlyPart : GenPart := { inlineData := none, text := some "hello" }

/-- A part whose `inlineData` is declared but whose `data` field is absent. -/
def missingDataPart : GenPart := { inlineData := some { data := none }, text := none }

/-- True when a part either lacks `inlineData` or declares it with a missing
or empty `data` field (the situations C4 is about). -/
def partHasNoData (p : GenPart) : Bool :=
  match p.inlineData with
  | none => true
  | some d =>
    match d.data with
    | none => true
    | some s => s = ""

/-- C4 counterexample: on a response whose only part declares an inline
image-data field that is present but empty, the single-illustrate route does
not return the "no image" result — it throws "No image data received"
(surfaced as a 500 error response). -/
theorem illustrate_empty_inline_data_throws_counterexample :
    illustrateExtract none (mkResponse [emptyDataPart]) = .thrown "No image data received" ∧
    IllustrateOutcome.thrown "No image data received" ≠ .noImage := by
  constructor
  · rfl
  · decide

theorem processParts_all_empty (u : Option String) :
    ∀ parts : List GenPart, (∀ p ∈ parts, partHasNoData p = true) →
      processParts u parts = none := by
  intro parts
  induction parts with
  | nil => intro h; rfl
  | cons p ps ih =>
    intro h
    have hp := h p (List.mem_cons_self p ps)
    have hps := fun q hq => h q (List.mem_cons_of_mem p hq)
    cases hip : p.inlineData with
    | none => simp [processParts, hip, ih hps]
    | some d =>
      cases hdd : d.data with
      | none => simp [processParts, hip, hdd, ih hps]
      | some s =>
        have hs : s = "" := by simpa [partHasNoData, hip, hdd] using hp
        simp [processParts, hip, hdd, hs, ih hps]

theorem illustrateScan_no_inline (u : Option String) :
    ∀ parts : List GenPart, (∀ p ∈ parts, p.inlineData = none) →
      illustrateScan u parts = .noImage := by
  intro parts
  induction parts with
  | nil => intro h; rfl
  | cons p ps ih =>
    intro h
    have hp := h p (List.mem_cons_self p ps)
    have hps := fun q hq => h q (List.mem_cons_of_mem p hq)
    simp [illustrateScan, hp, ih hps]

/-- C4 (amended): for every response with zero parts, or whose parts all
either lack inline image data or declare it present but empty, the batch and
advanced extractor `processImageResponse` returns `null` without throwing;
the single-illustrate route returns "no image" when every part lacks an
`inlineData` field (in particular for zero parts), but a part that declares
`inlineData` with a missing or empty `data` field makes that route throw
instead of producing the "no image" result. -/
theorem extractor_defensive_on_empty (u : Option String) (r : GenerationResponse) :
    ((∀ p ∈ (responseParts r).getD [], partHasNoData p = true) →
      processImageResponse u r = none) ∧
    ((∀ p ∈ (responseParts r).getD [], p.inlineData = none) →
      illustrateExtract u r = .noImage) := by
  constructor
  · intro h
    unfold processImageResponse
    cases hr : responseParts r with
    | none => rfl
    | some parts =>
      rw [hr] at h
      exact processParts_all_empty u parts h
  · intro h
    unfold illustrateExtract
    cases hr : responseParts r with
    | none => rfl
    | some parts =>
      rw [hr] at h
      exact illustrateScan_no_inline u parts h

/-- Witness for C4 (amended) at concrete inputs. -/
theorem extractor_defensive_on_empty_witness :
    processImageResponse (some "/images/u.png")
        (mkResponse [textOnlyPart, missingDataPart, emptyDataPart]) = none ∧
    illustrateExtract (some "/images/u.png") (mkResponse [textOnlyPart]) = .noImage :=
  ⟨(extractor_defensive_on_empty (some "/images/u.png")
      (mkResponse [textOnlyPart, missingDataPart, emptyDataPart])).1 (by decide),
   (extractor_defensive_on_empty (some "/images/u.png")
      (mkResponse [textOnlyPart])).2 (by decide)⟩

/-! ### Generate route extraction

Embedding of `generateIllustration` from the generate route.  For each part,
in response order, the code first checks `part.inlineData` with a truthy
`data` (strategy A) and then, in the same loop iteration, checks whether
`part.text` contains the substring `data:image` and splits it on the first
comma (strategy B).  The decoded base64 payload (written to the local image
file) is the observable modelled here; filesystem writes are modelled as
succeeding — a thrown write error would be caught and turned into `null`. -/

/-- Decidable substring test, the semantics of JavaScript `includes`. -/
def containsSeq (needle : List Char) : List Char → Bool
  | [] => needle.isPrefixOf []
  | c :: cs => needle.isPrefixOf (c :: cs) || containsSeq needle cs

/-- JavaScript `split(sep)` on a character list, for a one-character
separator. -/
def splitOnCharList (sep : Char) : List Char → List (List Char)
  | [] => [[]]
  | c :: cs =>
    match splitOnCharList sep cs with
    | [] => [[]]
    | h :: t => if c = sep then [] :: h :: t else (c :: h) :: t

/-- Strategy A on one part: the truthy inline base64 payload, if any. -/
def partInlinePayload (p : GenPart) : Option String :=
  match p.inlineData with
  | some d =>
    match d.data with
    | some s => if s = "" then none else some s
    | none => none
  | none => none

/-- Strategy B on one part: when the part's text contains `data:image`, the
truthy substring after the first comma, if any. -/
def partDataUrlPayload (p : GenPart) : Option String :=
  match p.text with
  | some t =>
    if containsSeq ("data:image".data) t.data then
      match (splitOnCharList (Char.ofNat 44) t.data)[1]? with
      | some cs => if cs.isEmpty then none else some (String.mk cs)
      | none => none
    else none
  | none => none

/-- The part loop of `generateIllustration`: for each part in order, try
strategy A, then strategy B, then move to the next part. -/
def generateScan : List GenPart → Option String
  | [] => none
  | p :: ps =>
    match partInlinePayload p with
    | some s => some s
    | none =>
      match partDataUrlPayload p with
      | some s => some s
      | none => generateScan ps

/-- Embedding of `generateIllustration` (the payload it persists, or `null`). -/
def generateIllustration (r : GenerationResponse) : Option String :=
  match responseParts r with
  | none => none
  | some parts => generateScan parts

/-- A part whose text embeds a data URL with payload AAAA. -/
def dataUrlPart : GenPart := { inlineData := none, text := some "data:image/png;base64,AAAA" }

/-- A part carrying inline data BBBB. -/
def inlineBBBBPart : GenPart := { inlineData := some { data := some "BBBB" }, text := none }

/-- C5 counterexample: with a first part whose text embeds a data URL
(payload AAAA) and a second part carrying inline data (payload BBBB), the
extractor returns AAAA from the earlier part via strategy B, although a part
of the response matches the inline-data strategy A. -/
theorem generate_dataUrl_beats_later_inline_counterexample :
    generateIllustration (mkResponse [dataUrlPart, inlineBBBBPart]) = some "AAAA" ∧
    ((responseParts (mkResponse [dataUrlPart, inlineBBBBPart])).getD []).map
        partInlinePayload = [none, some "BBBB"] := by
  constructor
  · decide
  · decide

theorem generateScan_eq_findSome (parts : List GenPart) :
    generateScan parts =
      parts.findSome? (fun p => (partInlinePayload p).or (partDataUrlPayload p)) := by
  induction parts with
  | nil => rfl
  | cons p ps ih =>
    cases ha : partInlinePayload p with
    | some s => simp [generateScan, List.findSome?_cons, Option.or, ha]
    | none =>
      cases hb : partDataUrlPayload p with
      | some s => simp [generateScan, List.findSome?_cons, Option.or, ha, hb]
      | none => simp [generateScan, List.findSome?_cons, Option.or, ha, hb, ih]

/-- C5 (amended): extraction is per part, in response order; within one part
strategy A (inline data) is tried before strategy B (embedded data URL), and
the result comes from the first part where either strategy matches — so an
earlier part's embedded data URL takes precedence over a later part's inline
data. -/
theorem generate_first_matching_part_wins (r : GenerationResponse) :
    generateIllustration r =
      ((responseParts r).getD []).findSome?
        (fun p => (partInlinePayload p).or (partDataUrlPayload p)) := by
  cases hr : responseParts r with
  | none => simp [generateIllustration, hr]
  | some parts => simp [generateIllustration, hr, generateScan_eq_findSome]

/-! ### Prompt composers

Embedding of the prompt-building blocks of the single-page illustrate route
and the advanced-illustrate route.  JavaScript truthiness of the optional
request strings (undefined and the empty string are falsy) is modelled by
`truthy`. -/

/-- JavaScript truthiness of an optional string. -/
def truthy : Option String → Bool
  | some s => s != ""
  | none => false

/-- The four accepted style values. -/
inductive IllStyle where
  | realistic
  | cartoon
  | watercolor
  | sketch
deriving DecidableEq, Repr

/-- The style clause appended by the `switch (style)` of both routes. -/
def styleClause : IllStyle → String
  | .realistic => "Style: photorealistic, warm and inviting, suitable for ages 3-12. "
  | .cartoon => "Style: colorful cartoon illustration, friendly and engaging, suitable for ages 3-12. "
  | .watercolor => "Style: soft watercolor painting, artistic and dreamy, suitable for ages 3-12. "
  | .sketch => "Style: detailed pencil sketch with light coloring, educational and clear, suitable for ages 3-12. "

/-- The consistency clause embedding a literal character description. -/
def literalConsistencyClause (d : String) : String :=
  "Character consistency: Maintain the same character appearance as described: " ++ d ++ ". "

/-- The generic consistency clause used when no description is available. -/
def genericConsistencyClause : String :=
  "Character consistency: Maintain consistent character appearance throughout the story. "

/-- The edit/continuation clause shared by both routes. -/
def editContinuationClause : String :=
  "This is an edit/continuation of a previous scene. Maintain visual continuity and character consistency. "

/-- The fixed lighting/color/composition clause shared by both routes. -/
def closingClause : String :=
  "Lighting: soft, natural lighting. Colors: vibrant but not overwhelming. Composition: clean, uncluttered, focus on the main subject. "

/-- A single-page illustrate request after validation (defaults from its
body schema: style realistic, consistencyMode true, editMode false). -/
structure IllustrateRequest where
  prompt : String
  characterDescription : Option String := none
  previousImageUrl : Option String := none
  style : IllStyle := .realistic
  consistencyMode : Bool := true
  editMode : Bool := false
deriving Repr

/-- The consistency segment of the illustrate route: the literal clause when
a truthy description is present, else the generic clause when
`consistencyMode` is set, else nothing. -/
def illustrateConsistencySegment (r : IllustrateRequest) : String :=
  if truthy r.characterDescription then
    literalConsistencyClause (r.characterDescription.getD "")
  else if r.consistencyMode then genericConsistencyClause
  else ""

/-- The edit segment of the illustrate route. -/
def illustrateEditSegment (r : IllustrateRequest) : String :=
  if r.editMode && truthy r.previousImageUrl then editContinuationClause else ""

/-- The composed prompt of the illustrate route. -/
def illustratePrompt (r : IllustrateRequest) : String :=
  "Create a high-quality children\x27s book illustration. " ++ styleClause r.style ++
    illustrateConsistencySegment r ++ illustrateEditSegment r ++ closingClause ++ r.prompt

/-- An advanced-illustrate request after validation (defaults from its body
schema: style realistic, consistencyMode false, editMode false, fusionMode
false). -/
structure AdvancedRequest where
  prompt : String
  characterDescription : Option String := none
  previousImageUrl : Option String := none
  style : IllStyle := .realistic
  consistencyMode : Bool := false
  editMode : Bool := false
  fusionMode : Bool := false
deriving Repr

/-- The consistency segment of the advanced route: the literal clause only
when `consistencyMode` is set AND a truthy description is present; there is
no generic branch. -/
def advancedConsistencySegment (r : AdvancedRequest) : String :=
  if r.consistencyMode && truthy r.characterDescription then
    literalConsistencyClause (r.characterDescription.getD "")
  else ""

/-- The edit segment of the advanced route. -/
def advancedEditSegment (r : AdvancedRequest) : String :=
  if r.editMode && truthy r.previousImageUrl then editContinuationClause else ""

/-- The fusion segment of the advanced route. -/
def advancedFusionSegment (r : AdvancedRequest) : String :=
  if r.fusionMode then "Use image fusion techniques to blend multiple elements seamlessly. " else ""

/-- The composed prompt of the advanced route. -/
def advancedPrompt (r : AdvancedRequest) : String :=
  "Create a high-quality children\x27s book illustration with advanced features. " ++
    styleClause r.style ++ advancedConsistencySegment r ++ advancedEditSegment r ++
    advancedFusionSegment r ++ closingClause ++ r.prompt

/-- Substring containment on strings. -/
def strContains (s sub : String) : Prop := sub.data <:+: s.data

theorem string_data_append (a b : String) : (a ++ b).data = a.data ++ b.data := rfl

/-- The literal-description clause is never the generic clause, whatever the
description: they differ at character position 32 ("the same" against
"consistent"). -/
theorem literalConsistencyClause_ne_generic (d : String) :
    literalConsistencyClause d ≠ genericConsistencyClause := by
  intro h
  have h1 : (literalConsistencyClause d).data =
      ("Character consistency: Maintain the same character appearance as described: ".data ++
        d.data) ++ (". ").data := rfl
  have h2 : List.take 33 ((("Character consistency: Maintain the same character appearance as described: ").data ++ d.data) ++ (". ").data) =
      List.take 33 genericConsistencyClause.data := by
    rw [← h1]
    exact congrArg (List.take 33) (congrArg String.data h)
  rw [List.take_append_of_le_length (by simp), List.take_append_of_le_length (by decide)] at h2
  exact absurd h2 (by decide)

/-- A request whose character description is set to the empty string (the
schema accepts it); `consistencyMode` keeps its default `true`. -/
def reqEmptyDesc : IllustrateRequest :=
  { prompt := "A child waves", characterDescription := some "" }

/-- C6 counterexample: with `characterDescription` set to the empty string
(a set field, but falsy in JavaScript) and the default `consistencyMode`,
the illustrate route appends the generic consistency clause — the claim
asserts the prompt never contains it when the description is set. -/
theorem illustrate_empty_description_generic_counterexample :
    reqEmptyDesc.characterDescription = some "" ∧
    strContains (illustratePrompt reqEmptyDesc) genericConsistencyClause := by
  refine ⟨rfl, ?_⟩
  show genericConsistencyClause.data <:+: (illustratePrompt reqEmptyDesc).data
  refine ⟨("Create a high-quality children\x27s book illustration. " ++
    styleClause IllStyle.realistic).data, (closingClause ++ "A child waves").data, ?_⟩
  rfl

/-- C6 (amended): when `characterDescription` is set to a non-empty string,
the illustrate route's consistency segment is exactly the literal-description
clause (so the composed prompt contains the description) and is not the
generic clause; the advanced route appends the literal clause only when
`consistencyMode` is also true, and never appends the generic clause. -/
theorem character_description_controls_clause :
    (∀ (r : IllustrateRequest) (d : String), r.characterDescription = some d → d ≠ "" →
      illustrateConsistencySegment r = literalConsistencyClause d ∧
      illustrateConsistencySegment r ≠ genericConsistencyClause ∧
      strContains (illustratePrompt r) d) ∧
    (∀ (r : AdvancedRequest) (d : String), r.characterDescription = some d → d ≠ "" →
      advancedConsistencySegment r =
        (if r.consistencyMode then literalConsistencyClause d else "") ∧
      advancedConsistencySegment r ≠ genericConsistencyClause) := by
  constructor
  · intro r d hdesc hne
    have htrd : truthy (some d) = true := by
      simp [truthy, bne_iff_ne, hne]
    have hseg : illustrateConsistencySegment r = literalConsistencyClause d := by
      simp [illustrateConsistencySegment, hdesc, htrd]
    refine ⟨hseg, hseg ▸ literalConsistencyClause_ne_generic d, ?_⟩
    show d.data <:+: (illustratePrompt r).data
    have hshape : (illustratePrompt r).data =
        ("Create a high-quality children\x27s book illustration. " ++ styleClause r.style ++
            "Character consistency: Maintain the same character appearance as described: ").data ++
          d.data ++
          (". " ++ illustrateEditSegment r ++ closingClause ++ r.prompt).data := by
      simp [illustratePrompt, hseg, literalConsistencyClause, string_data_append,
        List.append_assoc]
    rw [hshape]
    exact List.infix_append _ _ _
  · intro r d hdesc hne
    have htrd : truthy (some d) = true := by
      simp [truthy, bne_iff_ne, hne]
    cases hc : r.consistencyMode with
    | false =>
      have hseg0 : advancedConsistencySegment r = "" := by
        simp [advancedConsistencySegment, hc]
      refine ⟨by simp [hseg0, hc], ?_⟩
      rw [hseg0]
      decide
    | true =>
      have hseg : advancedConsistencySegment r = literalConsistencyClause d := by
        simp [advancedConsistencySegment, hc, hdesc, htrd]
      refine ⟨by simp [hseg, hc], hseg ▸ literalConsistencyClause_ne_generic d⟩

/-- An illustrate request with a non-empty character description. -/
def reqNamedDesc : IllustrateRequest :=
  { prompt := "A child waves", characterDescription := some "Max the fox" }

/-- An advanced request with a non-empty character description. -/
def advReqNamedDesc : AdvancedRequest :=
  { prompt := "A child waves", characterDescription := some "Max the fox" }

/-- Witness for C6 (amended) at concrete inputs. -/
theorem character_description_controls_clause_witness :
    (illustrateConsistencySegment reqNamedDesc = literalConsistencyClause "Max the fox" ∧
      illustrateConsistencySegment reqNamedDesc ≠ genericConsistencyClause ∧
      strContains (illustratePrompt reqNamedDesc) "Max the fox") ∧
    (advancedConsistencySegment advReqNamedDesc =
        (if advReqNamedDesc.consistencyMode then literalConsistencyClause "Max the fox" else "") ∧
      advancedConsistencySegment advReqNamedDesc ≠ genericConsistencyClause) :=
  ⟨character_description_controls_clause.1 reqNamedDesc "Max the fox" rfl (by decide),
   character_description_controls_clause.2 advReqNamedDesc "Max the fox" rfl (by decide)⟩

/-! ### Image read endpoint

Embedding of the image-serving `GET` route.  `path.join` is modelled on
segment lists: it concatenates the segments and normalizes them, resolving
`..` against the previous segment, dropping `.` and empty segments (and
dropping `..` at the root, as Node does for absolute paths); the rendered
string joins the segments with `/`.  The route's security check compares the
RENDERED strings with JavaScript `startsWith`. -/

/-- Path normalization over segments, as `path.join` performs after
concatenating its arguments. -/
def normSegs (segs : List String) : List String :=
  segs.foldl
    (fun acc seg =>
      if seg = "." then acc
      else if seg = "" then acc
      else if seg = ".." then acc.dropLast
      else acc ++ [seg])
    []

/-- Rendering of an absolute path from its segments. -/
def renderPath (segs : List String) : String :=
  segs.foldl (fun acc seg => acc ++ "/" ++ seg) ""

/-- JavaScript `String.prototype.startsWith`. -/
def jsStartsWith (s pre : String) : Bool := pre.data.isPrefixOf s.data

/-- Segments of the static images directory under the working directory. -/
def imagesBase (cwd : List String) : List String := cwd ++ ["public", "images"]

/-- The security check of the image route: resolve
`join(cwd, "public", "images", ...pathSegs)` and test whether the rendered
result starts (as a string) with the rendered images directory; only then is
the file read and served. -/
def imageGETAllowed (cwd : List String) (pathSegs : List String) : Bool :=
  let imagePath := renderPath (normSegs (imagesBase cwd ++ pathSegs))
  let resolvedPath := renderPath (normSegs (imagesBase cwd))
  jsStartsWith imagePath resolvedPath

/-- Whether the resolved path truly lies inside the images directory: its
normalized segments extend the directory's normalized segments. -/
def insideImagesDir (cwd : List String) (pathSegs : List String) : Bool :=
  (normSegs (imagesBase cwd)).isPrefixOf (normSegs (imagesBase cwd ++ pathSegs))

/-- C7: the string-prefix security check of the image route can be bypassed
by a sibling directory whose name extends the images directory's name: the
segments `["..", "images-evil", "secret.png"]` resolve to
`/app/public/images-evil/secret.png`, which passes the `startsWith` check
although it is outside `/app/public/images` — contradicting the route's own
security-check comment. -/
theorem image_route_prefix_check_bypass :
    imageGETAllowed ["app"] ["..", "images-evil", "secret.png"] = true ∧
    insideImagesDir ["app"] ["..", "images-evil", "secret.png"] = false ∧
    normSegs (imagesBase ["app"] ++ ["..", "images-evil", "secret.png"]) =
      ["app", "public", "images-evil", "secret.png"] := by
  refine ⟨?_, ?_, ?_⟩ <;> decide

/-! ### Retention sweep

Embedding of the cleanup route `POST`: list the files of the images
directory, keep only names matching `illustration_*.png`, parse the embedded
timestamp (`parseInt(file.split("_")[1]) || 0`), sort by timestamp
descending, keep the 50 most recent and delete the rest, reporting both
counts.  The JavaScript sort with a numeric comparator is modelled as a
stable sort by descending timestamp; `unlink` failures are only logged and
do not change the reported counts. -/

/-- JavaScript `String.prototype.endsWith`. -/
def jsEndsWith (s suf : String) : Bool := suf.data.isSuffixOf s.data

/-- The sweep filter: names starting with `illustration_` and ending in
`.png`. -/
def sweepEligible (f : String) : Bool :=
  jsStartsWith f "illustration_" && jsEndsWith f ".png"

/-- Longest digit prefix of a character list. -/
def leadingDigits : List Char → List Char
  | [] => []
  | c :: cs => if c.isDigit then c :: leadingDigits cs else []

/-- JavaScript `parseInt(s) || 0` for the non-negative inputs relevant here:
value of the leading digit run, `0` when there is none. -/
def parseIntOr0 (cs : List Char) : Nat :=
  match leadingDigits cs with
  | [] => 0
  | ds => ds.foldl (fun n c => 10 * n + (c.toNat - 48)) 0

/-- The embedded timestamp of a file name:
`parseInt(file.split("_")[1]) || 0` (also `0` when there is no second
segment: `parseInt(undefined)` is `NaN`). -/
def fileTimestamp (f : String) : Nat :=
  match (splitOnCharList (Char.ofNat 95) f.data)[1]? with
  | some cs => parseIntOr0 cs
  | none => 0

/-- The `{name, timestamp}` entry built for each eligible file. -/
structure SweepFile where
  name : String
  timestamp : Nat
deriving DecidableEq, Repr

/-- Sort order of the sweep: timestamp descending. -/
def sweepOrder (a b : SweepFile) : Prop := b.timestamp ≤ a.timestamp

instance : DecidableRel sweepOrder :=
  fun a b => inferInstanceAs (Decidable (b.timestamp ≤ a.timestamp))

instance : IsTotal SweepFile sweepOrder := ⟨fun a b => Nat.le_total b.timestamp a.timestamp⟩

instance : IsTrans SweepFile sweepOrder := ⟨fun _ _ _ hab hbc => le_trans hbc hab⟩

/-- The report of the cleanup route, together with the two file lists it is
computed from. -/
structure SweepReport where
  deletedFiles : List String
  keptFiles : List String
  deleted : Nat
  kept : Nat
deriving DecidableEq, Repr

/-- The `{name, timestamp}` entries of the eligible files of the listing. -/
def sweepEntries (files : List String) : List SweepFile :=
  (files.filter sweepEligible).map (fun f => { name := f, timestamp := fileTimestamp f })

/-- The entries sorted by embedded timestamp, most recent first. -/
def sweepSorted (files : List String) : List SweepFile :=
  List.insertionSort sweepOrder (sweepEntries files)

/-- Embedding of the cleanup route `POST` over the directory listing: keep
the 50 most recent eligible files, delete the rest, report both counts. -/
def cleanupPOST (files : List String) : SweepReport :=
  let sortedFiles := sweepSorted files
  let filesToKeep := sortedFiles.take 50
  let filesToDelete := sortedFiles.drop 50
  { deletedFiles := filesToDelete.map (fun e => e.name)
    keptFiles := filesToKeep.map (fun e => e.name)
    deleted := filesToDelete.length
    kept := filesToKeep.length }

/-- Filename produced by the batch pipeline for page `pageIndex`. -/
def batchIllustrationFilename (timestamp : Nat) (pageIndex : Nat) (randomId : String) : String :=
  "batch_illustration_" ++ toString timestamp ++ "_page" ++ toString (pageIndex + 1) ++
    "_" ++ randomId ++ ".png"

/-- Filename produced by the advanced pipeline (`pageSuffix` is empty or
`_page<N>`). -/
def advancedIllustrationFilename (timestamp : Nat) (randomId : String)
    (pageSuffix : String) : String :=
  "advanced_illustration_" ++ toString timestamp ++ "_" ++ randomId ++ pageSuffix ++ ".png"

theorem isPrefixOf_cons_ne {a b : Char} (l₁ l₂ : List Char) (h : (a == b) = false) :
    List.isPrefixOf (a :: l₁) (b :: l₂) = false := by
  rw [show List.isPrefixOf (a :: l₁) (b :: l₂) = (a == b && List.isPrefixOf l₁ l₂) from rfl, h]
  rfl

theorem string_append_assoc (a b c : String) : (a ++ b) ++ c = a ++ (b ++ c) :=
  congrArg String.mk (List.append_assoc a.data b.data c.data)

/-! ### Claim C8 -/

/-- In a list sorted by descending timestamp with pairwise-distinct
timestamps, every dropped entry is strictly older than every kept entry. -/
theorem sweep_take_drop_strict {l : List SweepFile}
    (hsorted : List.Sorted sweepOrder l)
    (hdis : List.Pairwise (fun a b => a.timestamp ≠ b.timestamp) l) :
    ∀ a ∈ l.take 50, ∀ b ∈ l.drop 50, b.timestamp < a.timestamp := by
  have hsplit := List.take_append_drop 50 l
  have hp : List.Pairwise sweepOrder (l.take 50 ++ l.drop 50) := by
    rw [hsplit]; exact hsorted
  have hq : List.Pairwise (fun a b => a.timestamp ≠ b.timestamp)
      (l.take 50 ++ l.drop 50) := by
    rw [hsplit]; exact hdis
  intro a ha b hb
  have h1 := (List.pairwise_append.mp hp).2.2 a ha b hb
  have h2 := (List.pairwise_append.mp hq).2.2 a ha b hb
  exact lt_of_le_of_ne h1 (Ne.symm h2)

/-- C8: on a listing whose eligible files number exactly 60 with
pairwise-distinct embedded timestamps, one sweep deletes exactly the 10
oldest of them, keeps the 50 most recent, and reports
`{deleted: 10, kept: 50}`; every deleted file is strictly older than every
kept file, and together they are exactly the eligible files. -/
theorem retention_sweep_60_files (files : List String)
    (h60 : (files.filter sweepEligible).length = 60)
    (hdis : List.Pairwise (fun a b => fileTimestamp a ≠ fileTimestamp b)
      (files.filter sweepEligible)) :
    (cleanupPOST files).deleted = 10 ∧
    (cleanupPOST files).kept = 50 ∧
    (∀ d ∈ (cleanupPOST files).deletedFiles, ∀ k ∈ (cleanupPOST files).keptFiles,
      fileTimestamp d < fileTimestamp k) ∧
    ((cleanupPOST files).keptFiles ++ (cleanupPOST files).deletedFiles).Perm
      (files.filter sweepEligible) := by
  have hC : cleanupPOST files =
      { deletedFiles := ((sweepSorted files).drop 50).map (fun e => e.name)
        keptFiles := ((sweepSorted files).take 50).map (fun e => e.name)
        deleted := ((sweepSorted files).drop 50).length
        kept := ((sweepSorted files).take 50).length } := rfl
  have hperm : (sweepSorted files).Perm (sweepEntries files) :=
    List.perm_insertionSort _ _
  have hentlen : (sweepEntries files).length = 60 := by
    simp [sweepEntries, h60]
  have hslen : (sweepSorted files).length = 60 := hperm.length_eq.trans hentlen
  have hsorted : List.Sorted sweepOrder (sweepSorted files) :=
    List.sorted_insertionSort _ _
  have hdisE : List.Pairwise (fun a b => a.timestamp ≠ b.timestamp)
      (sweepEntries files) := List.pairwise_map.mpr hdis
  have hdisS : List.Pairwise (fun a b => a.timestamp ≠ b.timestamp)
      (sweepSorted files) :=
    (hperm.pairwise_iff (fun h => Ne.symm h)).mpr hdisE
  have hts : ∀ x ∈ sweepSorted files, x.timestamp = fileTimestamp x.name := by
    intro x hx
    obtain ⟨g, hg, hgx⟩ := List.mem_map.mp (hperm.mem_iff.mp hx)
    rw [← hgx]
  rw [hC]
  refine ⟨?_, ?_, ?_, ?_⟩
  · show ((sweepSorted files).drop 50).length = 10
    rw [List.length_drop, hslen]
  · show ((sweepSorted files).take 50).length = 50
    rw [List.length_take, hslen]
    omega
  · intro d hd k hk
    obtain ⟨e, he, hen⟩ := List.mem_map.mp hd
    obtain ⟨e2, he2, he2n⟩ := List.mem_map.mp hk
    have h1 := sweep_take_drop_strict hsorted hdisS e2 he2 e he
    rw [← hen, ← he2n, ← hts e (List.mem_of_mem_drop he),
      ← hts e2 (List.mem_of_mem_take he2)]
    exact h1
  · show (((sweepSorted files).take 50).map (fun e => e.name) ++
        ((sweepSorted files).drop 50).map (fun e => e.name)).Perm
      (files.filter sweepEligible)
    rw [← List.map_append, List.take_append_drop]
    have hmapped := hperm.map (fun e => e.name)
    have hnm : (sweepEntries files).map (fun e => e.name) = files.filter sweepEligible := by
      have hcomp : ((fun e : SweepFile => e.name) ∘ fun f : String =>
          ({ name := f, timestamp := fileTimestamp f } : SweepFile)) = id := rfl
      show ((files.filter sweepEligible).map
          (fun f => ({ name := f, timestamp := fileTimestamp f } : SweepFile))).map
            (fun e => e.name) = files.filter sweepEligible
      rw [List.map_map, hcomp, List.map_id]
    rw [hnm] at hmapped
    exact hmapped

/-- A listing of 60 eligible files with distinct embedded timestamps. -/
def sweepWitnessFiles : List String :=
  (List.range 60).map (fun i => "illustration_" ++ toString (i + 1) ++ "_x.png")

/-- Witness for C8 at a concrete input. -/
theorem retention_sweep_60_files_witness :
    (cleanupPOST sweepWitnessFiles).deleted = 10 ∧
    (cleanupPOST sweepWitnessFiles).kept = 50 ∧
    (∀ d ∈ (cleanupPOST sweepWitnessFiles).deletedFiles,
      ∀ k ∈ (cleanupPOST sweepWitnessFiles).keptFiles,
        fileTimestamp d < fileTimestamp k) ∧
    ((cleanupPOST sweepWitnessFiles).keptFiles ++
        (cleanupPOST sweepWitnessFiles).deletedFiles).Perm
      (sweepWitnessFiles.filter sweepEligible) :=
  retention_sweep_60_files sweepWitnessFiles (by decide) (by decide)

/-! ### Claim C9 -/

theorem sweepEligible_batch_prefix_false (y : String) :
    sweepEligible ("batch_illustration_" ++ y) = false := by
  have h1 : jsStartsWith ("batch_illustration_" ++ y) "illustration_" = false := by
    show List.isPrefixOf ("illustration_".data) (("batch_illustration_" ++ y).data) = false
    rw [show ("illustration_".data) = 'i' :: ("llustration_".data) from rfl,
      show (("batch_illustration_" ++ y).data) =
        'b' :: (("atch_illustration_" ++ y).data) from rfl]
    exact isPrefixOf_cons_ne _ _ (by decide)
  simp [sweepEligible, h1]

theorem sweepEligible_advanced_prefix_false (y : String) :
    sweepEligible ("advanced_illustration_" ++ y) = false := by
  have h1 : jsStartsWith ("advanced_illustration_" ++ y) "illustration_" = false := by
    show List.isPrefixOf ("illustration_".data) (("advanced_illustration_" ++ y).data) = false
    rw [show ("illustration_".data) = 'i' :: ("llustration_".data) from rfl,
      show (("advanced_illustration_" ++ y).data) =
        'a' :: (("dvanced_illustration_" ++ y).data) from rfl]
    exact isPrefixOf_cons_ne _ _ (by decide)
  simp [sweepEligible, h1]

/-- C9: the sweep only ever deletes (and only ever counts) files matching
`illustration_*.png`; in particular, every filename produced by the batch
pipeline (`batch_illustration_...`) or by the advanced pipeline
(`advanced_illustration_...`) fails the filter and is never deleted nor
counted in the report. -/
theorem sweep_only_touches_illustration_files :
    (∀ (files : List String) (f : String), f ∈ (cleanupPOST files).deletedFiles →
      sweepEligible f = true) ∧
    (∀ files : List String, (cleanupPOST files).deleted + (cleanupPOST files).kept =
      (files.filter sweepEligible).length) ∧
    (∀ (t p : Nat) (rid : String),
      sweepEligible (batchIllustrationFilename t p rid) = false) ∧
    (∀ (t : Nat) (rid sfx : String),
      sweepEligible (advancedIllustrationFilename t rid sfx) = false) := by
  refine ⟨?_, ?_, ?_, ?_⟩
  · intro files f hf
    have hC : (cleanupPOST files).deletedFiles =
        ((sweepSorted files).drop 50).map (fun e => e.name) := rfl
    rw [hC] at hf
    obtain ⟨e, he, hen⟩ := List.mem_map.mp hf
    have he2 : e ∈ sweepSorted files := List.mem_of_mem_drop he
    have he3 : e ∈ sweepEntries files :=
      (List.perm_insertionSort _ _).mem_iff.mp he2
    obtain ⟨g, hg, hge⟩ := List.mem_map.mp he3
    have hgf : g = f := by rw [← hen, ← hge]
    rw [← hgf]
    exact (List.mem_filter.mp hg).2
  · intro files
    have hC1 : (cleanupPOST files).deleted = ((sweepSorted files).drop 50).length := rfl
    have hC2 : (cleanupPOST files).kept = ((sweepSorted files).take 50).length := rfl
    have hslen : (sweepSorted files).length = (files.filter sweepEligible).length := by
      have hp := (List.perm_insertionSort sweepOrder (sweepEntries files)).length_eq
      have he : (sweepEntries files).length = (files.filter sweepEligible).length := by
        simp [sweepEntries]
      exact hp.trans he
    rw [hC1, hC2, List.length_drop, List.length_take, hslen]
    omega
  · intro t p rid
    rw [show batchIllustrationFilename t p rid =
        "batch_illustration_" ++
          (toString t ++ ("_page" ++ (toString (p + 1) ++ ("_" ++ (rid ++ ".png"))))) from by
      unfold batchIllustrationFilename
      repeat rw [string_append_assoc]]
    exact sweepEligible_batch_prefix_false _
  · intro t rid sfx
    rw [show advancedIllustrationFilename t rid sfx =
        "advanced_illustration_" ++
          (toString t ++ ("_" ++ (rid ++ (sfx ++ ".png")))) from by
      unfold advancedIllustrationFilename
      repeat rw [string_append_assoc]]
    exact sweepEligible_advanced_prefix_false _

/-- Witness for C9 at concrete inputs. -/
theorem sweep_only_touches_illustration_files_witness :
    sweepEligible "illustration_1_x.png" = true ∧
    (cleanupPOST sweepWitnessFiles).deleted + (cleanupPOST sweepWitnessFiles).kept =
      (sweepWitnessFiles.filter sweepEligible).length ∧
    sweepEligible (batchIllustrationFilename 1700000000000 0 "abc123") = false ∧
    sweepEligible (advancedIllustrationFilename 1700000000000 "abc123" "_page1") = false :=
  ⟨sweep_only_touches_illustration_files.1 sweepWitnessFiles "illustration_1_x.png" (by decide),
   sweep_only_touches_illustration_files.2.1 sweepWitnessFiles,
   sweep_only_touches_illustration_files.2.2.1 1700000000000 0 "abc123",
   sweep_only_touches_illustration_files.2.2.2 1700000000000 "abc123" "_page1"⟩

end StoryVoyage
